import Mathlib

/-!
Shallow embedding of the query-parameter state synchronization engine of the
repository (src/src/hooks/use-query-state.ts and src/src/lib/utils.ts, with
the UniqueArray type from the types module), together with theorems settling
the frozen claims about it.

A URLSearchParams object is modelled as an ordered association list of
string pairs (`Params`).  Serialization (`qsToString`) writes the standard
`k=v&k2=v2` form; all concrete inputs used below are plain alphanumerics,
for which serialization round-trips (spec section 8, Round-trip), so the code's
`new URLSearchParams(string)` reconstruction is modelled by passing the
parameter list itself.

A Zod schema is modelled as an injected function `String → Option String`
(`some` is `safeParse` success carrying the normalized output, `none` is
failure), exactly the capability interface the spec describes.
-/

namespace Plenora

/-- Ordered key/value list modelling a URLSearchParams object. -/
abbrev Params := List (String × String)

/-- URLSearchParams.get: the value of the first occurrence of the key,
`none` when absent (JS `null`). -/
def qsGet (p : Params) (key : String) : Option String :=
  (p.find? (fun e => e.1 == key)).map (fun e => e.2)

/-- URLSearchParams.has. -/
def qsHas (p : Params) (key : String) : Bool :=
  p.any (fun e => e.1 == key)

/-- URLSearchParams.delete: removes every occurrence of the key. -/
def qsDelete (p : Params) (key : String) : Params :=
  p.filter (fun e => e.1 != key)

/-- URLSearchParams.set: replaces the value at the first occurrence of the
key and drops later occurrences; appends at the end when the key is absent. -/
def qsSet : Params → String → String → Params
  | [], key, value => [(key, value)]
  | e :: rest, key, value =>
    if e.1 == key then (key, value) :: qsDelete rest key
    else e :: qsSet rest key value

/-- URLSearchParams.toString for plain (already-encoded) keys and values. -/
def qsToString (p : Params) : String :=
  String.intercalate "&" (p.map (fun e => e.1 ++ "=" ++ e.2))

/-- The `onParseError` option of UseQueryStateOptions. -/
inductive OnParseError
  | fallback
  | remove
deriving DecidableEq, Repr

/-- UseQueryStateOptions: all fields optional (`Partial` in the source). -/
structure QueryOptions where
  defaultValue : Option String := none
  schema : Option (String → Option String) := none
  onParseError : Option OnParseError := none

/-- `!!Object.keys(options).length`: the options object has at least one key. -/
def hasOptionKeys (o : QueryOptions) : Bool :=
  o.defaultValue.isSome || o.schema.isSome || o.onParseError.isSome

/-- JS truthiness of an optional string: `undefined` and `""` are falsy. -/
def isTruthy : Option String → Bool
  | none => false
  | some s => s != ""

/-- shouldUpdateQueryState (use-query-state.ts lines 259-288), translated
clause by clause.  `previousSearchParams.bind (qsGet · key)` models
`previousSearchParams?.get(key)` (a string, or `null`/`undefined` collapsed
to `none`); comparing it against `some value` models JS `!==` between a
string and a string-or-nullish. -/
def shouldUpdateQueryState (key value : String) (options : Option QueryOptions)
    (paramExists : Bool) (previousSearchParams : Option Params)
    (isInitialMount : Bool) : Bool :=
  let hasOptions : Bool := match options with
    | some o => hasOptionKeys o
    | none => false
  if !hasOptions && paramExists && value != "" then false
  else
    let hasDefaultValue : Bool := hasOptions && isTruthy (options.bind (fun o => o.defaultValue))
    let hasSchema : Bool := hasOptions && (options.bind (fun o => o.schema)).isSome
    (isInitialMount && hasDefaultValue
        && decide (some value ≠ options.bind (fun o => o.defaultValue))) ||
    (isInitialMount && !hasDefaultValue && hasSchema) ||
    (paramExists && value == "") ||
    (!paramExists && hasDefaultValue) ||
    (hasSchema
        && decide (some value ≠ previousSearchParams.bind (fun p => qsGet p key)))

/-- updateQueryState (use-query-state.ts lines 290-341).  The in-place
mutation of the URLSearchParams argument becomes returning the new list.
`schemaBranch = none` encodes control falling through the `if (schema)`
block into the bottom section, exactly as in the source. -/
def updateQueryState (key value : String) (searchParams : Params)
    (options : Option QueryOptions) : Params :=
  match options with
  | none =>
    if value != "" then qsSet searchParams key value
    else qsDelete searchParams key
  | some o =>
    let defaultValue := o.defaultValue
    let onParseError := o.onParseError.getD OnParseError.fallback
    let shouldFallback : Bool :=
      decide (onParseError = OnParseError.fallback) && isTruthy defaultValue
    let shouldRemove : Bool :=
      decide (onParseError = OnParseError.remove) || !isTruthy defaultValue
    let schemaBranch : Option Params :=
      match o.schema with
      | some schema =>
        match schema value with
        | some data => some (qsSet searchParams key data)
        | none =>
          if shouldFallback then some (qsSet searchParams key (defaultValue.getD ""))
          else if shouldRemove then some (qsDelete searchParams key)
          else none
      | none => none
    match schemaBranch with
    | some result => result
    | none =>
      if value == "" && shouldFallback then qsSet searchParams key (defaultValue.getD "")
      else if value == "" && shouldRemove then qsDelete searchParams key
      else if value != "" then qsSet searchParams key value
      else searchParams

/-- createQueryState (use-query-state.ts lines 355-381): applies the updates
in order against one working copy.  The single-update entry point of the
source is the one-element list; per-key options lookup
(`options?.[key]`, `undefined` when absent) is `optionsFor`. -/
def createQueryState (updates : List (String × String)) (searchParams : Params)
    (optionsFor : String → Option QueryOptions) : Params :=
  updates.foldl (fun sp u => updateQueryState u.1 u.2 sp (optionsFor u.1)) searchParams

/-- setQueryState (use-query-state.ts lines 93-115) as a pure step on the
synchronizer's remembered snapshot `_stableSearchParams.current`
(`st = none` models the ref still holding `null`): returns the new remembered
snapshot and the requested commit, `none` when the no-op guard suppresses it.
`existingSearchParams ?? ""` is `(st.map qsToString).getD ""`, reconstructed
as `st.getD []`. -/
def setQueryStateStep (key : String) (options : Option QueryOptions)
    (value : String) (st : Option Params) : Option Params × Option Params :=
  let existing : Option String := st.map qsToString
  let u := createQueryState [(key, value)] (st.getD []) (fun _ => options)
  if some (qsToString u) = existing then (st, none)
  else (some u, some u)

/-- _updateSearchParams of useQueriesState (use-query-state.ts lines 184-206),
the batched commit path, as a pure step in the same style. -/
def updateSearchParamsStep (optionsFor : String → Option QueryOptions)
    (updates : List (String × String)) (st : Option Params) :
    Option Params × Option Params :=
  let existing : Option String := st.map qsToString
  let u := createQueryState updates (st.getD []) optionsFor
  if some (qsToString u) = existing then (st, none)
  else (some u, some u)

/-- The reconciliation effect of useQueryState (lines 117-137): one pass for
one observed external snapshot `ext`.  On initial mount the ref is seeded
with the observed snapshot before the predicate runs; on a correction the
ref is reassigned to the observed snapshot and the setter is invoked. -/
def singleEffectStep (key : String) (options : Option QueryOptions)
    (ext : Params) (st : Option Params) : Option Params × Option Params :=
  let isInitialMount := st.isNone
  let st1 := if isInitialMount then some ext else st
  let value := (qsGet ext key).getD ""
  if shouldUpdateQueryState key value options (qsHas ext key) st1 isInitialMount then
    setQueryStateStep key options value (some ext)
  else (st1, none)

/-- The per-key body of useQueriesState's reconciliation loop
(lines 214-238).  The pending-updates queue is empty at the start of every
iteration because the `if (_paramUpdates.current.length > 0)` flush sits
inside the loop and clears it immediately after any push, so each iteration
either flushes a one-element batch (after reassigning the ref to the
observed snapshot) or leaves the state unchanged. -/
def multiEffectGo (optionsFor : String → Option QueryOptions) (ext : Params)
    (isInitialMount : Bool) : List String → Option Params → Option Params × List Params
  | [], st => (st, [])
  | key :: rest, st =>
    let value := (qsGet ext key).getD ""
    if shouldUpdateQueryState key value (optionsFor key) (qsHas ext key) st isInitialMount then
      let next := updateSearchParamsStep optionsFor [(key, value)] (some ext)
      let tail := multiEffectGo optionsFor ext isInitialMount rest next.1
      (tail.1, next.2.toList ++ tail.2)
    else multiEffectGo optionsFor ext isInitialMount rest st

/-- The reconciliation effect of useQueriesState (lines 208-239): one pass
over the whole key list for one observed external snapshot, collecting every
navigation commit the pass issues, in order. -/
def multiEffectStep (keys : List String) (optionsFor : String → Option QueryOptions)
    (ext : Params) (st : Option Params) : Option Params × List Params :=
  let isInitialMount := st.isNone
  let st0 := if isInitialMount then some ext else st
  multiEffectGo optionsFor ext isInitialMount keys st0

/-- An externally visible event of the single-key hook's lifetime: the
effect observing an external snapshot, or a caller invoking the setter.
Events model, in order, what the surrounding framework delivers. -/
inductive QEvent
  | observe (ext : Params)
  | setCall (value : String)

/-- Runs the single-key synchronizer over a sequence of events, collecting
the navigation commits it requests, in order. -/
def runSingle (key : String) (options : Option QueryOptions) :
    List QEvent → Option Params → Option Params × List Params
  | [], st => (st, [])
  | e :: rest, st =>
    let next := match e with
      | QEvent.observe ext => singleEffectStep key options ext st
      | QEvent.setCall v => setQueryStateStep key options v st
    let tail := runSingle key options rest next.1
    (tail.1, next.2.toList ++ tail.2)

/-- try/catch over a computation in the exception monad: run the body; a
raised value is handed to the catch handler. -/
def tryCatch {E A : Type} (body : Except E A) (handler : E → A) : A :=
  match body with
  | Except.ok a => a
  | Except.error e => handler e

/-- safeTry (utils.ts lines 29-36).  The argument `operation : T` is a plain
value: under call-by-value it was fully evaluated at the call site, so the
try block `const result = operation; return [result, null]` is the
exception-free computation `Except.ok`; the catch branch maps a raised `e`
to `[null, e]`.  The JS tuple `[T, null] | [null, E]` is the pair of
options. -/
def safeTry {T E : Type} (operation : T) : Option T × Option E :=
  tryCatch
    (do
      let result := operation
      pure (some result, none))
    (fun e => (none, some e))

/-- The type-level function DuplicateElements of the types module (unnamed
part_001 lines 59-67), computing the duplicated elements of a tuple type
with a Seen accumulator, transcribed onto lists of keys. -/
def duplicateElements : List String → List String → List String → List String
  | [], _, duplicates => duplicates
  | first :: rest, seen, duplicates =>
    if seen.contains first then duplicateElements rest seen (duplicates ++ [first])
    else duplicateElements rest (seen ++ [first]) duplicates

/-- The type-level acceptance of UniqueArray (part_001 lines 75-76): when
`DuplicateElements T` is empty the key list type is `T` itself (accepted,
unchanged); otherwise it is the unconstructible branded `ValidElements`
type, so no caller-supplied list inhabits it and the construction is
rejected (`none`). -/
def uniqueArray (l : List String) : Option (List String) :=
  if duplicateElements l [] [] = [] then some l else none

/-- An options object literal with no keys (`{}`). -/
def emptyOptions : QueryOptions := {}

/-- The set-or-delete decision of the spec's Validation/Defaulting Policy. -/
inductive ResolveAction
  | set (value : String)
  | delete
deriving DecidableEq, Repr

/-- Modelled from the spec: the total decision procedure of section 4.1
(Validation/Defaulting Policy), written from the claim's and the spec's
words, to be compared against `updateQueryState`.  Per the spec's section 3,
absence and empty string are both "no usable value", so "a default exists"
means a non-empty `defaultValue`; `onInvalid` defaults to `fallback`. -/
def resolveSpec (value : String) (options : Option QueryOptions) : ResolveAction :=
  match options with
  | none =>
    if value != "" then ResolveAction.set value else ResolveAction.delete
  | some o =>
    let onInvalid := o.onParseError.getD OnParseError.fallback
    let defaultExists : Bool := isTruthy o.defaultValue
    match o.schema with
    | some validator =>
      match validator value with
      | some normalized => ResolveAction.set normalized
      | none =>
        if onInvalid = OnParseError.fallback ∧ defaultExists = true then
          ResolveAction.set (o.defaultValue.getD "")
        else ResolveAction.delete
    | none =>
      if value == "" then
        if defaultExists = true ∧ onInvalid = OnParseError.fallback then
          ResolveAction.set (o.defaultValue.getD "")
        else ResolveAction.delete
      else ResolveAction.set value

/-- Modelled from the spec: the Reconciliation Predicate rule list of
section 4.2 as the claim states it (short-circuit first, then the logical
OR of the five correction rules), to be compared against
`shouldUpdateQueryState`.  "A default exists" is a non-empty default and
"a validator exists" is a supplied schema; "the previous snapshot's value
for that key" is absent (`none`) when the snapshot or the key is missing. -/
def needsCorrectionSpec (key value : String) (options : Option QueryOptions)
    (paramExists : Bool) (previousSnapshot : Option Params)
    (isInitialObservation : Bool) : Bool :=
  let configured : Bool := match options with
    | some o => hasOptionKeys o
    | none => false
  let defaultExists : Bool := isTruthy (options.bind (fun o => o.defaultValue))
  let validatorExists : Bool := (options.bind (fun o => o.schema)).isSome
  if !configured && paramExists && value != "" then false
  else
    (isInitialObservation && defaultExists
        && decide (options.bind (fun o => o.defaultValue) ≠ some value)) ||
    (isInitialObservation && !defaultExists && validatorExists) ||
    (paramExists && value == "") ||
    (!paramExists && defaultExists) ||
    (validatorExists
        && decide (some value ≠ previousSnapshot.bind (fun p => qsGet p key)))

/-- Per-key options of the spec's batch-atomicity scenario (section 8):
`page` absent with default `"1"`, `sort` with default `"name"` and a
validator accepting only `"name"` or `"date"`. -/
def pageSortOptions : String → Option QueryOptions := fun k =>
  if k = "page" then some { defaultValue := some "1" }
  else if k = "sort" then
    some ⟨some "name", some (fun s => if s = "name" || s = "date" then some s else none), none⟩
  else none

/-- Options of the repeated-commit scenario: default `"2"` with a validator
accepting only `"2"`. -/
def onlyTwoOptions : Option QueryOptions :=
  some ⟨some "2", some (fun s => if s = "2" then some s else none), none⟩

/-- Per-key options of the pass-ordering scenario: key `a` has a validator
rejecting `"bad"` with default `"9"`; key `b` has a normalizing validator
(appends `"!"`) and no default. -/
def abOptions : String → Option QueryOptions := fun k =>
  if k = "a" then some ⟨some "9", some (fun s => if s = "bad" then none else some s), none⟩
  else if k = "b" then some ⟨none, some (fun s => some (s ++ "!")), none⟩
  else none

end Plenora

namespace Plenora

/-! Helper lemmas about the snapshot operations. -/

theorem qsGet_cons (e : String × String) (t : Params) (k : String) :
    qsGet (e :: t) k = if e.1 = k then some e.2 else qsGet t k := by
  by_cases h : e.1 = k
  · rw [if_pos h]
    unfold qsGet
    rw [List.find?_cons_of_pos _ (by simpa using h)]
    rfl
  · rw [if_neg h]
    unfold qsGet
    rw [List.find?_cons_of_neg _ (by simpa using h)]

theorem qsDelete_cons (e : String × String) (t : Params) (k0 : String) :
    qsDelete (e :: t) k0 = if e.1 = k0 then qsDelete t k0 else e :: qsDelete t k0 := by
  by_cases h : e.1 = k0
  · rw [if_pos h]
    simp [qsDelete, List.filter_cons, h]
  · rw [if_neg h]
    simp [qsDelete, List.filter_cons, h]

theorem qsSet_cons (e : String × String) (t : Params) (k0 v : String) :
    qsSet (e :: t) k0 v
      = if e.1 = k0 then (k0, v) :: qsDelete t k0 else e :: qsSet t k0 v := by
  by_cases h : e.1 = k0
  · rw [if_pos h]
    simp [qsSet, h]
  · rw [if_neg h]
    simp [qsSet, h]

theorem qsHas_cons (e : String × String) (t : Params) (k : String) :
    qsHas (e :: t) k = ((e.1 == k) || qsHas t k) := by
  simp [qsHas]

theorem qsGet_qsDelete_ne (p : Params) (k0 k : String) (h : k ≠ k0) :
    qsGet (qsDelete p k0) k = qsGet p k := by
  induction p with
  | nil => rfl
  | cons e t ih =>
    rw [qsDelete_cons, qsGet_cons]
    by_cases he : e.1 = k0
    · rw [if_pos he, if_neg (fun hk => h (hk.symm.trans he)), ih]
    · rw [if_neg he, qsGet_cons]
      by_cases hk : e.1 = k
      · rw [if_pos hk, if_pos hk]
      · rw [if_neg hk, if_neg hk, ih]

theorem qsGet_qsSet_ne (p : Params) (k0 v k : String) (h : k ≠ k0) :
    qsGet (qsSet p k0 v) k = qsGet p k := by
  induction p with
  | nil =>
    show qsGet [(k0, v)] k = none
    rw [qsGet_cons]
    exact if_neg (fun hk => h hk.symm)
  | cons e t ih =>
    rw [qsSet_cons]
    by_cases he : e.1 = k0
    · rw [if_pos he, qsGet_cons, qsGet_cons, if_neg (fun hk => h hk.symm),
        if_neg (fun hk => h (hk.symm.trans he)), qsGet_qsDelete_ne t k0 k h]
    · rw [if_neg he, qsGet_cons, qsGet_cons]
      by_cases hk : e.1 = k
      · rw [if_pos hk, if_pos hk]
      · rw [if_neg hk, if_neg hk, ih]

theorem qsHas_qsDelete (p : Params) (k0 k : String)
    (h : qsHas (qsDelete p k0) k = true) : qsHas p k = true := by
  induction p with
  | nil => exact h
  | cons e t ih =>
    rw [qsDelete_cons] at h
    rw [qsHas_cons]
    by_cases he : e.1 = k0
    · rw [if_pos he] at h
      simp [ih h]
    · rw [if_neg he, qsHas_cons] at h
      rcases Bool.or_eq_true_iff.mp h with h1 | h2
      · simp [h1]
      · simp [ih h2]

theorem qsHas_qsSet (p : Params) (k0 v k : String)
    (h : qsHas (qsSet p k0 v) k = true) : k = k0 ∨ qsHas p k = true := by
  induction p with
  | nil =>
    left
    have hb : (k0 == k) = true := by simpa [qsSet, qsHas] using h
    exact (beq_iff_eq.mp hb).symm
  | cons e t ih =>
    rw [qsSet_cons] at h
    by_cases he : e.1 = k0
    · rw [if_pos he, qsHas_cons] at h
      rcases Bool.or_eq_true_iff.mp h with h1 | h2
      · exact Or.inl (beq_iff_eq.mp h1).symm
      · exact Or.inr (by rw [qsHas_cons]; simp [qsHas_qsDelete t k0 k h2])
    · rw [if_neg he, qsHas_cons] at h
      rcases Bool.or_eq_true_iff.mp h with h1 | h2
      · exact Or.inr (by rw [qsHas_cons]; simp [h1])
      · rcases ih h2 with h3 | h4
        · exact Or.inl h3
        · exact Or.inr (by rw [qsHas_cons]; simp [h4])

/-- Every branch of updateQueryState returns the input snapshot unchanged,
sets its own key, or deletes its own key. -/
theorem updateQueryState_shape (key value : String) (sp : Params)
    (options : Option QueryOptions) :
    updateQueryState key value sp options = sp ∨
    (∃ v, updateQueryState key value sp options = qsSet sp key v) ∨
    updateQueryState key value sp options = qsDelete sp key := by
  unfold updateQueryState
  rcases options with _ | ⟨dv, sch, ope⟩
  · dsimp only
    split
    · exact Or.inr (Or.inl ⟨value, rfl⟩)
    · exact Or.inr (Or.inr rfl)
  · dsimp only
    cases sch with
    | some schema =>
      dsimp only
      cases hv : schema value with
      | some data =>
        simp only [hv]
        exact Or.inr (Or.inl ⟨data, rfl⟩)
      | none =>
        simp only [hv]
        split
        · rename_i r heq
          split at heq
          · exact Or.inr (Or.inl ⟨_, (Option.some.inj heq).symm⟩)
          · split at heq
            · exact Or.inr (Or.inr (Option.some.inj heq).symm)
            · cases heq
        · repeat' split
          all_goals
            first
              | exact Or.inl rfl
              | exact Or.inr (Or.inl ⟨_, rfl⟩)
              | exact Or.inr (Or.inr rfl)
    | none =>
      dsimp only
      repeat' split
      all_goals
        first
          | exact Or.inl rfl
          | exact Or.inr (Or.inl ⟨_, rfl⟩)
          | exact Or.inr (Or.inr rfl)

theorem qsGet_updateQueryState_ne (key value : String) (sp : Params)
    (options : Option QueryOptions) (k : String) (h : k ≠ key) :
    qsGet (updateQueryState key value sp options) k = qsGet sp k := by
  rcases updateQueryState_shape key value sp options with h1 | ⟨v, h1⟩ | h1
  · rw [h1]
  · rw [h1]
    exact qsGet_qsSet_ne sp key v k h
  · rw [h1]
    exact qsGet_qsDelete_ne sp key k h

theorem qsHas_updateQueryState (key value : String) (sp : Params)
    (options : Option QueryOptions) (k : String)
    (h : qsHas (updateQueryState key value sp options) k = true) :
    k = key ∨ qsHas sp k = true := by
  rcases updateQueryState_shape key value sp options with h1 | ⟨v, h1⟩ | h1
  · rw [h1] at h
    exact Or.inr h
  · rw [h1] at h
    exact qsHas_qsSet sp key v k h
  · rw [h1] at h
    exact Or.inr (qsHas_qsDelete sp key k h)

theorem createQueryState_cons (u : String × String) (t : List (String × String))
    (sp : Params) (f : String → Option QueryOptions) :
    createQueryState (u :: t) sp f
      = createQueryState t (updateQueryState u.1 u.2 sp (f u.1)) f := rfl

theorem qsGet_createQueryState_not_mem (updates : List (String × String))
    (sp : Params) (f : String → Option QueryOptions) (k : String)
    (h : k ∉ updates.map Prod.fst) :
    qsGet (createQueryState updates sp f) k = qsGet sp k := by
  induction updates generalizing sp with
  | nil => rfl
  | cons u t ih =>
    have hk : k ≠ u.1 := fun e => h (by simp [e])
    have ht : k ∉ t.map Prod.fst := fun m => h (by simp [m])
    rw [createQueryState_cons, ih _ ht]
    exact qsGet_updateQueryState_ne u.1 u.2 sp (f u.1) k hk

theorem qsHas_createQueryState (updates : List (String × String)) (sp : Params)
    (f : String → Option QueryOptions) (k : String)
    (h : qsHas (createQueryState updates sp f) k = true) :
    k ∈ updates.map Prod.fst ∨ qsHas sp k = true := by
  induction updates generalizing sp with
  | nil => exact Or.inr h
  | cons u t ih =>
    rw [createQueryState_cons] at h
    rcases ih _ h with h1 | h2
    · simp at h1 ⊢
      exact Or.inl (Or.inr h1)
    · rcases qsHas_updateQueryState u.1 u.2 sp (f u.1) k h2 with h3 | h4
      · exact Or.inl (by simp [h3])
      · exact Or.inr h4

end Plenora

namespace Plenora

/-! Theorems settling the claims. -/

/-- C1: the claim says a reconciliation pass of useQueriesState in which two
keys need correction issues exactly one combined navigation commit (for keys
page and sort, a single commit containing page=1 and sort=name).  Evaluating
the embedded pass on exactly that scenario (page absent with default "1",
sort present as "xyz", invalid for its validator, with default "name")
shows the code instead issues two commits: the flush block sits inside the
key loop, so the first commit carries the uncorrected sort=xyz together with
page=1, and the second carries sort=name alone — the second commit is built
from the reassigned observed snapshot, so it even drops page again.  This
contradicts the spec's batch-atomicity property and the hook's own doc
comment that updates are batched. -/
theorem C1_batch_pass_issues_two_commits :
    multiEffectStep ["page", "sort"] pageSortOptions [("sort", "xyz")] none
      = (some [("sort", "name")],
         [[("sort", "xyz"), ("page", "1")], [("sort", "name")]]) := by
  decide

/-- C2: updateQueryState implements exactly the total resolution procedure
the claim states — no options: set iff the raw value is non-empty, else
delete; with a validator: success sets the validator's output, failure sets
the default under fallback when a (usable, i.e. non-empty, per spec section 3)
default exists and deletes under remove or when no default exists; without a
validator: an empty raw value sets the default under fallback when one
exists and otherwise deletes, and a non-empty raw value is set as-is.
Stated as equality with the spec-modelled `resolveSpec` applied to the
snapshot, for all keys, raw values, snapshots and options. -/
theorem C2_updateQueryState_implements_resolution_policy :
    ∀ (key value : String) (sp : Params) (options : Option QueryOptions),
      updateQueryState key value sp options =
        match resolveSpec value options with
        | ResolveAction.set v => qsSet sp key v
        | ResolveAction.delete => qsDelete sp key := by
  intro key value sp options
  rcases options with _ | ⟨dv, sch, ope⟩
  · unfold updateQueryState resolveSpec
    by_cases h : value = ""
    · simp [h]
    · simp [h]
  · unfold updateQueryState resolveSpec
    dsimp only
    cases sch with
    | some schema =>
      dsimp only
      cases hv : schema value with
      | some data => simp only [hv]
      | none =>
        simp only [hv]
        rcases ope with _ | pe
        · cases hdv : isTruthy dv <;> simp [hdv]
        · cases pe <;> cases hdv : isTruthy dv <;> simp [hdv]
    | none =>
      dsimp only
      by_cases h : value = ""
      · rcases ope with _ | pe
        · cases hdv : isTruthy dv <;> simp [h, hdv]
        · cases pe <;> cases hdv : isTruthy dv <;> simp [h, hdv]
      · simp [h]

/-- C3: shouldUpdateQueryState equals the rule list the claim states: false
when no options are configured, the key is present and its value non-empty;
otherwise the disjunction of the five correction rules (initial observation
with a default and a differing raw value; initial observation with no
default but a validator; present and empty; absent with a default; a
validator and a raw value differing from the previous snapshot's value).
Stated as equality with the spec-modelled `needsCorrectionSpec` for all
inputs. -/
theorem C3_shouldUpdateQueryState_matches_spec_rules :
    ∀ (key value : String) (options : Option QueryOptions) (paramExists : Bool)
      (prev : Option Params) (isInit : Bool),
      shouldUpdateQueryState key value options paramExists prev isInit
        = needsCorrectionSpec key value options paramExists prev isInit := by
  intro key value options paramExists prev isInit
  rcases options with _ | ⟨dv, sch, ope⟩
  · simp [shouldUpdateQueryState, needsCorrectionSpec, isTruthy]
  · have e1 : (hasOptionKeys ⟨dv, sch, ope⟩ && isTruthy dv) = isTruthy dv := by
      cases dv with
      | none => simp [isTruthy]
      | some s => simp [hasOptionKeys]
    have e2 : (hasOptionKeys ⟨dv, sch, ope⟩ && sch.isSome) = sch.isSome := by
      cases sch with
      | none => simp
      | some f => simp [hasOptionKeys]
    have e3 : decide (some value ≠ dv) = decide (dv ≠ some value) :=
      decide_eq_decide.mpr ne_comm
    unfold shouldUpdateQueryState needsCorrectionSpec
    simp only [Option.some_bind]
    rw [e1, e2, e3]

/-- C4 counterexample: the claim concludes that no two consecutive commits
from one synchronizer carry the same serialization.  With default "2" and a
validator accepting only "2", the single-key synchronizer observing the
external snapshots page=abc, then its own commit page=2, then an external
edit page=xyz, issues two consecutive commits both serializing to page=2:
the reconciliation effect reassigns the remembered snapshot to the observed
external snapshot before committing, so the no-op guard compares against
page=xyz, not against the previous commit page=2. -/
theorem C4_counterexample_consecutive_equal_commits :
    (runSingle "page" onlyTwoOptions
        [QEvent.observe [("page", "abc")], QEvent.observe [("page", "2")],
         QEvent.observe [("page", "xyz")]] none).2
      = [[("page", "2")], [("page", "2")]] ∧
    qsToString [("page", "2")] = "page=2" := by
  exact ⟨by decide, by decide⟩

/-- C4 amended: a navigation commit is requested only when the candidate
snapshot's serialization differs from the remembered serialization at the
moment of the no-op check, for both commit paths (the single-key setter and
the batched _updateSearchParams); a computed no-op is silently suppressed,
not committed and not an error.  (The claim's further consequence that
consecutive commits always differ fails, because reconciliation reassigns
the remembered snapshot between commits — see the counterexample.) -/
theorem C4_commit_only_if_serialization_differs :
    (∀ (key : String) (options : Option QueryOptions) (value : String)
        (st st' : Option Params) (c : Params),
        setQueryStateStep key options value st = (st', some c) →
        some (qsToString c) ≠ st.map qsToString) ∧
    (∀ (f : String → Option QueryOptions) (updates : List (String × String))
        (st st' : Option Params) (c : Params),
        updateSearchParamsStep f updates st = (st', some c) →
        some (qsToString c) ≠ st.map qsToString) := by
  constructor
  · intro key options value st st' c h
    unfold setQueryStateStep at h
    dsimp only at h
    split at h
    · simp only [Prod.mk.injEq] at h
      exact absurd h.2 (by simp)
    · rename_i hne
      simp only [Prod.mk.injEq] at h
      obtain rfl : _ = c := Option.some.inj h.2
      exact hne
  · intro f updates st st' c h
    unfold updateSearchParamsStep at h
    dsimp only at h
    split at h
    · simp only [Prod.mk.injEq] at h
      exact absurd h.2 (by simp)
    · rename_i hne
      simp only [Prod.mk.injEq] at h
      obtain rfl : _ = c := Option.some.inj h.2
      exact hne

/-- Witness for C4: a concrete setter call from a null remembered snapshot
commits, and the theorem yields that its serialization differs from the
remembered one. -/
theorem C4_commit_only_if_serialization_differs_witness :
    some (qsToString [("k", "x")]) ≠ (none : Option Params).map qsToString :=
  C4_commit_only_if_serialization_differs.1 "k" none "x" none
    (some [("k", "x")]) [("k", "x")] (by decide)

/-- C5: the claim says every key of a batch pass is evaluated against the
same pre-pass snapshot, so a later key's decision never depends on an
earlier key's write.  In the embedded pass with remembered snapshot
a=1&b=1 and observed snapshot a=bad&b=2 (key a: validator rejecting "bad"
with default "9"; key b: normalizing validator appending "!"), the code
commits a=9&b=2 for key a and then evaluates key b against that committed
snapshot, where b's value "2" matches, deciding no correction — the pass
ends with one commit and b unnormalized.  Against the pre-pass snapshot
(where b was "1") the predicate decides correction for b, as the second
conjunct shows: the later key's decision did depend on the earlier key's
write. -/
theorem C5_later_key_evaluated_against_mid_pass_snapshot :
    multiEffectStep ["a", "b"] abOptions [("a", "bad"), ("b", "2")]
        (some [("a", "1"), ("b", "1")])
      = (some [("a", "9"), ("b", "2")], [[("a", "9"), ("b", "2")]]) ∧
    shouldUpdateQueryState "b" "2" (abOptions "b") true
        (some [("a", "1"), ("b", "1")]) false = true := by
  exact ⟨by decide, by decide⟩

/-- C6: constructing the batch synchronizer with a duplicate key list fails
at construction — the type-level UniqueArray check rejects the list
["page", "page"] (its type becomes the unconstructible branded type, a
compile-time failure, hence before any reconciliation pass) — and an
accepted list is passed through exactly as given, never deduplicated. -/
theorem C6_duplicate_keys_rejected_at_construction :
    uniqueArray ["page", "page"] = none ∧
    ∀ (l r : List String), uniqueArray l = some r → r = l := by
  constructor
  · decide
  · intro l r h
    unfold uniqueArray at h
    split at h
    · exact (Option.some.inj h).symm
    · exact absurd h (by simp)

/-- Witness for C6: the duplicate-free list ["page", "sort"] is accepted and
comes back unchanged. -/
theorem C6_duplicate_keys_rejected_at_construction_witness :
    (["page", "sort"] : List String) = ["page", "sort"] :=
  C6_duplicate_keys_rejected_at_construction.2 ["page", "sort"] ["page", "sort"]
    (by decide)

/-- C7 counterexample: the claim says every non-tracked key appears in the
committed snapshot with exactly its value in the current external snapshot
at commit time.  The setter computes the commit purely from the remembered
snapshot and never reads the live external one: invoked while the
remembered snapshot is still null and the live external snapshot is
foo=bar, it commits a snapshot containing only page=x, in which the
non-tracked key foo is absent rather than carrying its external value
"bar". -/
theorem C7_counterexample_setter_ignores_external_snapshot :
    setQueryStateStep "page" none "x" none
        = (some [("page", "x")], some [("page", "x")]) ∧
    qsGet [("foo", "bar")] "foo" = some "bar" ∧
    qsGet [("page", "x")] "foo" = none := by
  refine ⟨by decide, by decide, by decide⟩

/-- C7 amended: every key other than the key(s) a commit updates appears in
the committed snapshot with exactly the value it has in the synchronizer's
remembered base snapshot at commit time (the remembered snapshot usually
mirrors the external one, but can lag behind it or be empty before the
first reconciliation): both commit paths pass non-updated keys through
verbatim from the base they build on. -/
theorem C7_pass_through_from_remembered_base :
    (∀ (key : String) (options : Option QueryOptions) (value : String)
        (st st' : Option Params) (c : Params),
        setQueryStateStep key options value st = (st', some c) →
        ∀ k, k ≠ key → qsGet c k = qsGet (st.getD []) k) ∧
    (∀ (f : String → Option QueryOptions) (updates : List (String × String))
        (st st' : Option Params) (c : Params),
        updateSearchParamsStep f updates st = (st', some c) →
        ∀ k, k ∉ updates.map Prod.fst → qsGet c k = qsGet (st.getD []) k) := by
  constructor
  · intro key options value st st' c h k hk
    unfold setQueryStateStep at h
    dsimp only at h
    split at h
    · simp only [Prod.mk.injEq] at h
      exact absurd h.2 (by simp)
    · simp only [Prod.mk.injEq] at h
      obtain rfl : _ = c := Option.some.inj h.2
      exact qsGet_createQueryState_not_mem _ _ _ k (by simpa using hk)
  · intro f updates st st' c h k hk
    unfold updateSearchParamsStep at h
    dsimp only at h
    split at h
    · simp only [Prod.mk.injEq] at h
      exact absurd h.2 (by simp)
    · simp only [Prod.mk.injEq] at h
      obtain rfl : _ = c := Option.some.inj h.2
      exact qsGet_createQueryState_not_mem _ _ _ k hk

/-- Witness for C7: a concrete setter commit from the remembered snapshot
foo=bar preserves foo verbatim. -/
theorem C7_pass_through_from_remembered_base_witness :
    qsGet [("foo", "bar"), ("page", "x")] "foo" = qsGet [("foo", "bar")] "foo" :=
  C7_pass_through_from_remembered_base.1 "page" none "x" (some [("foo", "bar")])
    (some [("foo", "bar"), ("page", "x")]) [("foo", "bar"), ("page", "x")]
    (by decide) "foo" (by decide)

/-- C8: when either hook's imperative setter path runs while the remembered
snapshot ref is still null (before the first reconciliation effect), the
new query string is computed from the empty base, so any committed snapshot
contains only the key(s) being set — every other parameter of the live
external snapshot is omitted. -/
theorem C8_setter_with_null_ref_commits_only_set_keys :
    (∀ (key : String) (options : Option QueryOptions) (value : String)
        (st' : Option Params) (c : Params),
        setQueryStateStep key options value none = (st', some c) →
        ∀ k, qsHas c k = true → k = key) ∧
    (∀ (f : String → Option QueryOptions) (updates : List (String × String))
        (st' : Option Params) (c : Params),
        updateSearchParamsStep f updates none = (st', some c) →
        ∀ k, qsHas c k = true → k ∈ updates.map Prod.fst) := by
  constructor
  · intro key options value st' c h k hk
    unfold setQueryStateStep at h
    dsimp only at h
    split at h
    · simp only [Prod.mk.injEq] at h
      exact absurd h.2 (by simp)
    · simp only [Prod.mk.injEq] at h
      obtain rfl : _ = c := Option.some.inj h.2
      rcases qsHas_createQueryState _ _ _ k hk with h1 | h2
      · simpa using h1
      · exact absurd h2 (by simp [qsHas])
  · intro f updates st' c h k hk
    unfold updateSearchParamsStep at h
    dsimp only at h
    split at h
    · simp only [Prod.mk.injEq] at h
      exact absurd h.2 (by simp)
    · simp only [Prod.mk.injEq] at h
      obtain rfl : _ = c := Option.some.inj h.2
      rcases qsHas_createQueryState _ _ _ k hk with h1 | h2
      · exact h1
      · exact absurd h2 (by simp [qsHas])

/-- Witness for C8: a concrete batched commit from a null remembered
snapshot; the key m found in the commit is among the updated keys. -/
theorem C8_setter_with_null_ref_commits_only_set_keys_witness :
    "m" ∈ ([("m", "1"), ("n", "2")].map Prod.fst) :=
  C8_setter_with_null_ref_commits_only_set_keys.2 (fun _ => none)
    [("m", "1"), ("n", "2")] (some [("m", "1"), ("n", "2")])
    [("m", "1"), ("n", "2")] (by decide) "m" (by decide)

/-- C9: safeTry returns the pair of its fully evaluated argument and a null
error for every argument: the tried block cannot raise, so the catch branch
is unreachable and the error component is always none. -/
theorem C9_safeTry_never_returns_error :
    ∀ (T E : Type) (x : T), @safeTry T E x = (some x, none) := by
  intro T E x
  rfl

/-- C10: supplying the empty options object is observationally equivalent to
supplying no options: for every key, raw value, presence flag, previous
snapshot, mount flag and snapshot, shouldUpdateQueryState yields the same
boolean and updateQueryState the same resulting parameter list. -/
theorem C10_empty_options_equivalent_to_absent :
    ∀ (key value : String) (paramExists : Bool) (prev : Option Params)
      (isInit : Bool) (sp : Params),
      shouldUpdateQueryState key value (some emptyOptions) paramExists prev isInit
          = shouldUpdateQueryState key value none paramExists prev isInit ∧
      updateQueryState key value sp (some emptyOptions)
          = updateQueryState key value sp none := by
  intro key value paramExists prev isInit sp
  constructor
  · rfl
  · by_cases h : value = ""
    · subst h
      simp [updateQueryState, emptyOptions, isTruthy]
    · simp [updateQueryState, emptyOptions, isTruthy, h]

end Plenora
